import Mathlib

/-!
# Ant path-integration simulation: a shallow embedding

This file embeds the simulation core of `ant_trajectory.py` (an ant-inspired
path-integration demo) in Lean 4 and proves the testable properties of its
specification against the embedding.

Modelling conventions:
* Python floats are modelled as real numbers (`ℝ`); the spec's properties are
  stated up to floating-point tolerance, i.e. about the ideal real semantics.
* `np.random.uniform(-π/4, π/4)`, called once per exploration step, is
  modelled by an abstract draw sequence `rng : ℕ → ℝ` (index = step number);
  seeding fixes such a sequence, so determinism becomes functionality in `rng`.
* Python's `%` on integers (sign of the divisor) is `Int.fmod`; `step % 0`
  raises `ZeroDivisionError` in Python, and float division by `0.0` likewise,
  so the whole-run function `runSim` is `Option`-valued, returning `none`
  exactly when the script would raise.
* `np.arctan2 y x` is `Complex.arg ⟨x, y⟩` (same piecewise definition and
  range `(-π, π]`, with `arctan2 0 0 = 0`).
* The script's five parallel history lists (`explore_x`, `explore_y`,
  `Dx_hist`, `Dy_hist`, `theta_hist`) are one list of `AntState` records;
  `home_x`/`home_y` are one list of pairs.
-/

noncomputable section

/-- The simulation parameters of `ant_trajectory.py` (lines 61-70):
`step_length`, `num_explore_steps`, `scan_interval`, `scan_gain`,
`sun_direction`.  Counts are Python `int`s, hence `ℤ`. -/
structure Config where
  step_length : ℝ
  num_explore_steps : ℤ
  scan_interval : ℤ
  scan_gain : ℝ
  sun_direction : ℝ

/-- The mutable state of the exploration loop: physical position `(x, y)`,
integrated displacement estimate `(Dx, Dy)`, and heading `theta`. -/
structure AntState where
  x : ℝ
  y : ℝ
  Dx : ℝ
  Dy : ℝ
  theta : ℝ

/-- Initial state (lines 77-83): origin position, zero displacement estimate,
zero heading. -/
def initState : AntState := ⟨0, 0, 0, 0, 0⟩

/-- One iteration of the exploration loop (lines 96-116): perturb the heading
by the draw `delta`, move `step_length` along the perturbed heading, add the
same increment to the displacement estimate, then, if `step % scan_interval
== 0`, pull the heading toward `sun_direction` with gain `scan_gain`.
(`Int.fmod` matches Python's `%` for a nonnegative dividend and any nonzero
divisor; the divisor-zero case is excluded in `runSim`.) -/
def exploreStep (cfg : Config) (delta : ℝ) (step : ℕ) (s : AntState) : AntState :=
  let theta1 := s.theta + delta
  let dx := cfg.step_length * Real.cos theta1
  let dy := cfg.step_length * Real.sin theta1
  { x := s.x + dx
    y := s.y + dy
    Dx := s.Dx + dx
    Dy := s.Dy + dy
    theta :=
      if Int.fmod (step : ℤ) cfg.scan_interval = 0 then
        theta1 - cfg.scan_gain * (theta1 - cfg.sun_direction)
      else theta1 }

/-- State after `k` iterations of the exploration loop: iteration `k` uses
draw `rng k` and step index `k`. -/
def stateAfter (cfg : Config) (rng : ℕ → ℝ) : ℕ → AntState
  | 0 => initState
  | k + 1 => exploreStep cfg (rng k) k (stateAfter cfg rng k)

/-- Number of loop iterations: Python's `range(n)` is empty for `n ≤ 0`. -/
def exploreCount (cfg : Config) : ℕ := cfg.num_explore_steps.toNat

/-- The recorded exploration history (lines 86-90 and 118-123): the initial
state followed by one snapshot after each loop iteration (snapshots are taken
after the scan correction). -/
def explorationHistory (cfg : Config) (rng : ℕ → ℝ) : List AntState :=
  (List.range (exploreCount cfg + 1)).map (stateAfter cfg rng)

/-- The exploration end state (`food_x, food_y` are its position, line 126). -/
def finalState (cfg : Config) (rng : ℕ → ℝ) : AntState :=
  stateAfter cfg rng (exploreCount cfg)

/-- `np.arctan2 y x`: the angle of the point `(x, y)`, in `(-π, π]`. -/
def arctan2 (y x : ℝ) : ℝ := Complex.arg ⟨x, y⟩

/-- The scalar summary of the return computation (lines 133-138):
resultant magnitude and angle, homing angle, and number of return steps.
`num_home_steps` is `int(R_mag / step_length)`; since `range` of a negative
number is empty, it is recorded as the natural number `(⌊R_mag / L⌋).toNat`,
which drives the same loop. -/
structure ReturnSummary where
  R_mag : ℝ
  R_angle : ℝ
  home_angle : ℝ
  num_home_steps : ℕ

/-- Lines 133-138: `R_mag = sqrt (Dx² + Dy²)`, `R_angle = arctan2 Dy Dx`,
`home_angle = R_angle + π`, `num_home_steps = int (R_mag / L)`. -/
def computeSummary (Dx Dy L : ℝ) : ReturnSummary :=
  { R_mag := Real.sqrt (Dx ^ 2 + Dy ^ 2)
    R_angle := arctan2 Dy Dx
    home_angle := arctan2 Dy Dx + Real.pi
    num_home_steps := (⌊Real.sqrt (Dx ^ 2 + Dy ^ 2) / L⌋).toNat }

/-- One iteration of the return loop (lines 144-145): add the fixed vector
`(L·cos angle, L·sin angle)` to the position. -/
def homeStep (L angle : ℝ) (p : ℝ × ℝ) : ℝ × ℝ :=
  (p.1 + L * Real.cos angle, p.2 + L * Real.sin angle)

/-- The recorded return path (lines 140-147): the starting position followed
by one position after each of the `count` return steps. -/
def homePath (L angle : ℝ) : ℝ × ℝ → ℕ → List (ℝ × ℝ)
  | p, 0 => [p]
  | p, k + 1 => p :: homePath L angle (homeStep L angle p) k

/-- The full recorded output of one run: exploration snapshots, return
summary, return path. -/
structure SimResult where
  explore : List AntState
  summary : ReturnSummary
  home : List (ℝ × ℝ)

/-- The summary the script derives from the final displacement estimate. -/
def runSummary (cfg : Config) (rng : ℕ → ℝ) : ReturnSummary :=
  computeSummary (finalState cfg rng).Dx (finalState cfg rng).Dy cfg.step_length

/-- The output the script computes when it does not raise. -/
def simResult (cfg : Config) (rng : ℕ → ℝ) : SimResult :=
  { explore := explorationHistory cfg rng
    summary := runSummary cfg rng
    home := homePath cfg.step_length (runSummary cfg rng).home_angle
        ((finalState cfg rng).x, (finalState cfg rng).y)
        (runSummary cfg rng).num_home_steps }

/-- The whole script as a function of configuration and draw sequence.
It returns `none` exactly when the Python run raises: `step % 0` inside the
exploration loop (so only when at least one iteration runs), or the float
division `R_mag / 0.0` when `step_length = 0`.  There is no configuration
validation in the script. -/
def runSim (cfg : Config) (rng : ℕ → ℝ) : Option SimResult :=
  if exploreCount cfg ≠ 0 ∧ cfg.scan_interval = 0 then none
  else if cfg.step_length = 0 then none
  else some (simResult cfg rng)

/-- The constants hard-coded in the script (lines 63-69). -/
def defaultConfig : Config :=
  { step_length := 0.5
    num_explore_steps := 120
    scan_interval := 10
    scan_gain := 0.1
    sun_direction := 0 }

/-- The all-zero draw sequence (zero heading perturbation at every step). -/
def rngZ : ℕ → ℝ := fun _ => 0

/-- A draw sequence that agrees with `rngZ` on index `0` and differs above. -/
def rngB : ℕ → ℝ := fun i => if i < 1 then 0 else 1

/-- A small valid configuration (one exploration step, unit step length,
scan every step, full scan gain) used to instantiate theorems. -/
def cfgW : Config :=
  { step_length := 1
    num_explore_steps := 1
    scan_interval := 1
    scan_gain := 1
    sun_direction := 0 }

/-- The script's configuration with scan gain raised to `1`. -/
def cfgGain1 : Config := { defaultConfig with scan_gain := 1 }

/-- A configuration with zero exploration steps. -/
def cfgZero : Config := { cfgW with num_explore_steps := 0 }

/-- A configuration that is invalid in the sense of the specification:
`step_length = -1 ≤ 0` and `scan_interval = -1 < 1`, with one exploration
step. -/
def cfgInvalid : Config :=
  { step_length := -1
    num_explore_steps := 1
    scan_interval := -1
    scan_gain := 0
    sun_direction := 0 }

end

/-! ## Helper lemmas -/

lemma stateAfter_Dxy (cfg : Config) (rng : ℕ → ℝ) (k : ℕ) :
    (stateAfter cfg rng k).Dx = (stateAfter cfg rng k).x
    ∧ (stateAfter cfg rng k).Dy = (stateAfter cfg rng k).y := by
  induction k with
  | zero => exact ⟨rfl, rfl⟩
  | succ k ih => simp [stateAfter, exploreStep, ih.1, ih.2]

lemma explorationHistory_length (cfg : Config) (rng : ℕ → ℝ) :
    (explorationHistory cfg rng).length = exploreCount cfg + 1 := by
  simp [explorationHistory]

lemma explorationHistory_getD (cfg : Config) (rng : ℕ → ℝ) (k : ℕ)
    (hk : k < exploreCount cfg + 1) (d : AntState) :
    (explorationHistory cfg rng).getD k d = stateAfter cfg rng k := by
  rw [explorationHistory, List.getD_eq_getElem?_getD, List.getElem?_map,
    List.getElem?_range hk]
  rfl

lemma homePath_length (L a : ℝ) (p : ℝ × ℝ) (k : ℕ) :
    (homePath L a p k).length = k + 1 := by
  induction k generalizing p with
  | zero => rfl
  | succ k ih => simp [homePath, ih]

lemma homePath_getD_zero (L a : ℝ) (p : ℝ × ℝ) (k : ℕ) (d : ℝ × ℝ) :
    (homePath L a p k).getD 0 d = p := by
  cases k <;> rfl

lemma homePath_getD_succ (L a : ℝ) (p : ℝ × ℝ) (k i : ℕ) (d : ℝ × ℝ)
    (h : i + 1 < k + 1) :
    (homePath L a p k).getD (i + 1) d
      = homeStep L a ((homePath L a p k).getD i d) := by
  induction k generalizing p i with
  | zero => omega
  | succ k ih =>
    have e : homePath L a p (k + 1) = p :: homePath L a (homeStep L a p) k := rfl
    cases i with
    | zero =>
      rw [e, List.getD_cons_succ, List.getD_cons_zero, homePath_getD_zero]
    | succ i =>
      rw [e, List.getD_cons_succ, List.getD_cons_succ,
        ih (homeStep L a p) i (by omega)]

lemma stateAfter_congr (cfg : Config) (rng₁ rng₂ : ℕ → ℝ) (k : ℕ)
    (h : ∀ i < k, rng₁ i = rng₂ i) :
    stateAfter cfg rng₁ k = stateAfter cfg rng₂ k := by
  induction k with
  | zero => rfl
  | succ k ih =>
    simp only [stateAfter]
    rw [ih (fun i hi => h i (by omega)), h k (by omega)]

lemma runSim_some_inv {cfg : Config} {rng : ℕ → ℝ} {res : SimResult}
    (h : runSim cfg rng = some res) : res = simResult cfg rng := by
  unfold runSim at h
  split_ifs at h
  simp_all

/-! ## Claim C1: path-integration identity -/

/-- Claim C1: for every exploration step index `k` from `0` to
`exploreStepCount`, the recorded displacement estimate `(Dx_hist[k],
Dy_hist[k])` equals the recorded position `(explore_x[k], explore_y[k])`
minus the initial position: both start at the origin and receive the
identical `(dx, dy)` increment at every step. -/
theorem path_integration_identity (cfg : Config) (rng : ℕ → ℝ) (k : ℕ)
    (hk : k < (explorationHistory cfg rng).length) :
    ((explorationHistory cfg rng).getD k initState).Dx
        = ((explorationHistory cfg rng).getD k initState).x - initState.x
    ∧ ((explorationHistory cfg rng).getD k initState).Dy
        = ((explorationHistory cfg rng).getD k initState).y - initState.y := by
  rw [explorationHistory_length] at hk
  rw [explorationHistory_getD cfg rng k hk initState]
  exact ⟨by rw [(stateAfter_Dxy cfg rng k).1]; simp [initState],
    by rw [(stateAfter_Dxy cfg rng k).2]; simp [initState]⟩

theorem path_integration_identity_witness :
    0 < (explorationHistory defaultConfig rngZ).length
    ∧ (((explorationHistory defaultConfig rngZ).getD 0 initState).Dx
        = ((explorationHistory defaultConfig rngZ).getD 0 initState).x
          - initState.x
      ∧ ((explorationHistory defaultConfig rngZ).getD 0 initState).Dy
        = ((explorationHistory defaultConfig rngZ).getD 0 initState).y
          - initState.y) :=
  ⟨by simp [explorationHistory],
    path_integration_identity defaultConfig rngZ 0 (by simp [explorationHistory])⟩

/-! ## Claim C2: per-step exploration update rule -/

/-- Claim C2: each exploration step perturbs the heading by one draw
(`θ' = θ + δ` with `δ = rng k`), computes the step displacement
`(dx, dy) = (stepLength·cos θ', stepLength·sin θ')` from the perturbed
heading (before any scan correction of this step), and adds `(dx, dy)` both
to the position and to the displacement estimate. -/
theorem explore_step_update (cfg : Config) (rng : ℕ → ℝ) (k : ℕ) :
    (stateAfter cfg rng (k + 1)).x
        = (stateAfter cfg rng k).x
          + cfg.step_length * Real.cos ((stateAfter cfg rng k).theta + rng k)
    ∧ (stateAfter cfg rng (k + 1)).y
        = (stateAfter cfg rng k).y
          + cfg.step_length * Real.sin ((stateAfter cfg rng k).theta + rng k)
    ∧ (stateAfter cfg rng (k + 1)).Dx
        = (stateAfter cfg rng k).Dx
          + cfg.step_length * Real.cos ((stateAfter cfg rng k).theta + rng k)
    ∧ (stateAfter cfg rng (k + 1)).Dy
        = (stateAfter cfg rng k).Dy
          + cfg.step_length * Real.sin ((stateAfter cfg rng k).theta + rng k) :=
  ⟨rfl, rfl, rfl, rfl⟩

/-! ## Claim C3: scan correction rule -/

/-- Claim C3: exactly on the exploration steps whose index `k` satisfies
`k mod scanInterval == 0`, the heading becomes
`θ'' = θ' - scanGain·(θ' - referenceDirection)` (where `θ' = θ + δ` is the
perturbed heading of the step) after the step's movement; with
`scanGain = 0` the heading after scanning equals the heading before
scanning, and with `scanGain = 1` it equals `referenceDirection` exactly. -/
theorem scan_correction (cfg : Config) (rng : ℕ → ℝ) (k : ℕ) :
    (Int.fmod (k : ℤ) cfg.scan_interval = 0 →
      (stateAfter cfg rng (k + 1)).theta
        = ((stateAfter cfg rng k).theta + rng k)
          - cfg.scan_gain
            * (((stateAfter cfg rng k).theta + rng k) - cfg.sun_direction))
    ∧ (Int.fmod (k : ℤ) cfg.scan_interval ≠ 0 →
      (stateAfter cfg rng (k + 1)).theta
        = (stateAfter cfg rng k).theta + rng k)
    ∧ (cfg.scan_gain = 0 →
      (stateAfter cfg rng (k + 1)).theta
        = (stateAfter cfg rng k).theta + rng k)
    ∧ (cfg.scan_gain = 1 → Int.fmod (k : ℤ) cfg.scan_interval = 0 →
      (stateAfter cfg rng (k + 1)).theta = cfg.sun_direction) := by
  refine ⟨fun h => ?_, fun h => ?_, fun h => ?_, fun hg h => ?_⟩
  · simp [stateAfter, exploreStep, h]
  · simp [stateAfter, exploreStep, h]
  · simp [stateAfter, exploreStep, h]
  · simp [stateAfter, exploreStep, h, hg]

theorem scan_correction_witness :
    (stateAfter cfgGain1 rngZ 1).theta = cfgGain1.sun_direction :=
  (scan_correction cfgGain1 rngZ 0).2.2.2 rfl (by decide)

/-! ## Claim C10: the first exploration step always scans -/

/-- Claim C10: for every `scanInterval ≥ 1`, the exploration step with
index `0` triggers the scan correction (`0 mod scanInterval == 0`), so with
`scanGain = 1` the heading recorded after the very first exploration step
equals `referenceDirection`, regardless of the perturbation drawn. -/
theorem first_step_scan (cfg : Config) (rng : ℕ → ℝ) (h1 : 1 ≤ cfg.scan_interval) :
    Int.fmod (0 : ℤ) cfg.scan_interval = 0
    ∧ (stateAfter cfg rng 1).theta
        = rng 0 - cfg.scan_gain * (rng 0 - cfg.sun_direction)
    ∧ (cfg.scan_gain = 1 → (stateAfter cfg rng 1).theta = cfg.sun_direction) := by
  refine ⟨Int.zero_fmod _, ?_, fun hg => ?_⟩
  · simp [stateAfter, exploreStep, initState, Int.zero_fmod]
  · simp [stateAfter, exploreStep, initState, Int.zero_fmod, hg]

theorem first_step_scan_witness :
    1 ≤ cfgW.scan_interval
    ∧ (Int.fmod (0 : ℤ) cfgW.scan_interval = 0
      ∧ (stateAfter cfgW rngZ 1).theta
          = rngZ 0 - cfgW.scan_gain * (rngZ 0 - cfgW.sun_direction)
      ∧ (cfgW.scan_gain = 1 →
          (stateAfter cfgW rngZ 1).theta = cfgW.sun_direction)) :=
  ⟨by decide, first_step_scan cfgW rngZ (by decide)⟩

/-! ## Claim C9: determinism -/

lemma runSim_cfgW : runSim cfgW rngZ = some (simResult cfgW rngZ) := by
  unfold runSim
  simp [cfgW, exploreCount]

/-- Claim C9: for a fixed configuration, the whole simulation is a
deterministic function of the draw sequence, consuming exactly one draw per
exploration step in step order: any two draw sequences that agree on the
draws of steps `0..exploreStepCount-1` produce identical exploration
snapshot sequences, return-path position sequences and ReturnSummary.  In
particular two runs with the same seed (hence the same draw sequence) are
identical. -/
theorem determinism (cfg : Config) (rng₁ rng₂ : ℕ → ℝ)
    (h : ∀ i < exploreCount cfg, rng₁ i = rng₂ i) :
    runSim cfg rng₁ = runSim cfg rng₂ := by
  have hs : ∀ k ≤ exploreCount cfg,
      stateAfter cfg rng₁ k = stateAfter cfg rng₂ k :=
    fun k hk => stateAfter_congr cfg rng₁ rng₂ k (fun i hi => h i (by omega))
  have hist : explorationHistory cfg rng₁ = explorationHistory cfg rng₂ := by
    unfold explorationHistory
    refine List.map_congr_left (fun a ha => ?_)
    exact hs a (by simpa using Nat.lt_succ_iff.mp (List.mem_range.mp ha))
  have hfin : finalState cfg rng₁ = finalState cfg rng₂ := hs _ le_rfl
  have hsum : runSummary cfg rng₁ = runSummary cfg rng₂ := by
    unfold runSummary
    rw [hfin]
  have hres : simResult cfg rng₁ = simResult cfg rng₂ := by
    unfold simResult
    rw [hist, hfin, hsum]
  unfold runSim
  rw [hres]

theorem determinism_witness : runSim cfgW rngZ = runSim cfgW rngB :=
  determinism cfgW rngZ rngB (by
    intro i hi
    simp [exploreCount, cfgW] at hi
    simp [rngZ, rngB, hi])

/-! ## Claim C4: return direction -/

/-- Claim C4: the ReturnSummary computed from the final displacement
estimate `(Dx, Dy)` has `magnitude = sqrt (Dx² + Dy²)` and return angle
`atan2 Dy Dx + π`, the exact opposite (mod 2π) of the direction
`R_angle = atan2 Dy Dx` of the accumulated displacement vector. -/
theorem return_direction (cfg : Config) (rng : ℕ → ℝ) (res : SimResult)
    (h : runSim cfg rng = some res) :
    res.summary.R_mag
        = Real.sqrt ((finalState cfg rng).Dx ^ 2 + (finalState cfg rng).Dy ^ 2)
    ∧ res.summary.R_angle
        = arctan2 (finalState cfg rng).Dy (finalState cfg rng).Dx
    ∧ res.summary.home_angle
        = arctan2 (finalState cfg rng).Dy (finalState cfg rng).Dx + Real.pi := by
  rw [runSim_some_inv h]
  exact ⟨rfl, rfl, rfl⟩

theorem return_direction_witness :
    runSim cfgW rngZ = some (simResult cfgW rngZ)
    ∧ ((simResult cfgW rngZ).summary.R_mag
        = Real.sqrt
            ((finalState cfgW rngZ).Dx ^ 2 + (finalState cfgW rngZ).Dy ^ 2)
      ∧ (simResult cfgW rngZ).summary.R_angle
          = arctan2 (finalState cfgW rngZ).Dy (finalState cfgW rngZ).Dx
      ∧ (simResult cfgW rngZ).summary.home_angle
          = arctan2 (finalState cfgW rngZ).Dy (finalState cfgW rngZ).Dx
            + Real.pi) :=
  ⟨runSim_cfgW, return_direction cfgW rngZ (simResult cfgW rngZ) runSim_cfgW⟩

/-! ## Claim C5: return step count and return steps -/

lemma runSummary_R_mag_nonneg (cfg : Config) (rng : ℕ → ℝ) :
    0 ≤ (runSummary cfg rng).R_mag :=
  Real.sqrt_nonneg _

lemma runSummary_num_eq_floor (cfg : Config) (rng : ℕ → ℝ)
    (hL : 0 < cfg.step_length) :
    ((runSummary cfg rng).num_home_steps : ℤ)
      = ⌊(runSummary cfg rng).R_mag / cfg.step_length⌋ := by
  have h0 : 0 ≤ (runSummary cfg rng).R_mag / cfg.step_length :=
    div_nonneg (runSummary_R_mag_nonneg cfg rng) hL.le
  exact Int.toNat_of_nonneg (Int.floor_nonneg.mpr h0)

/-- Claim C5: the number of return steps is `⌊magnitude / stepLength⌋`
(integer truncation; the magnitude is nonnegative and `stepLength` is
positive), each return step adds exactly
`stepLength·(cos angle, sin angle)` to the current position with no
randomness or heading correction, and the leftover distance
`magnitude - stepCount·stepLength` lies in `[0, stepLength)`, so the agent
may stop short of the origin by a remainder strictly less than
`stepLength`. -/
theorem return_step_count (cfg : Config) (rng : ℕ → ℝ) (res : SimResult)
    (hL : 0 < cfg.step_length) (h : runSim cfg rng = some res) :
    ((res.summary.num_home_steps : ℤ)
        = ⌊res.summary.R_mag / cfg.step_length⌋)
    ∧ (∀ i, i + 1 < res.home.length →
        res.home.getD (i + 1) (0, 0)
          = ((res.home.getD i (0, 0)).1
              + cfg.step_length * Real.cos res.summary.home_angle,
            (res.home.getD i (0, 0)).2
              + cfg.step_length * Real.sin res.summary.home_angle))
    ∧ 0 ≤ res.summary.R_mag
        - res.summary.num_home_steps * cfg.step_length
    ∧ res.summary.R_mag - res.summary.num_home_steps * cfg.step_length
        < cfg.step_length := by
  have e := runSim_some_inv h
  subst e
  have hnum := runSummary_num_eq_floor cfg rng hL
  refine ⟨hnum, fun i hi => ?_, ?_, ?_⟩
  · have hlen : (simResult cfg rng).home.length
        = (runSummary cfg rng).num_home_steps + 1 := by
      simp only [simResult]
      rw [homePath_length]
    rw [hlen] at hi
    have := homePath_getD_succ cfg.step_length (runSummary cfg rng).home_angle
      ((finalState cfg rng).x, (finalState cfg rng).y)
      (runSummary cfg rng).num_home_steps i (0, 0) hi
    simpa [simResult, homeStep] using this
  · have hfl : ((runSummary cfg rng).num_home_steps : ℝ)
        ≤ (runSummary cfg rng).R_mag / cfg.step_length := by
      have : (((runSummary cfg rng).num_home_steps : ℤ) : ℝ)
          ≤ (runSummary cfg rng).R_mag / cfg.step_length := by
        rw [hnum]
        exact Int.floor_le _
      exact_mod_cast this
    have h2 := mul_le_mul_of_nonneg_right hfl hL.le
    rw [div_mul_cancel₀ _ (ne_of_gt hL)] at h2
    simpa [simResult] using sub_nonneg.mpr h2
  · have hfl : (runSummary cfg rng).R_mag / cfg.step_length
        < ((runSummary cfg rng).num_home_steps : ℝ) + 1 := by
      have : (runSummary cfg rng).R_mag / cfg.step_length
          < (((runSummary cfg rng).num_home_steps : ℤ) : ℝ) + 1 := by
        rw [hnum]
        exact Int.lt_floor_add_one _
      exact_mod_cast this
    have h2 := mul_lt_mul_of_pos_right hfl hL
    rw [div_mul_cancel₀ _ (ne_of_gt hL)] at h2
    have h3 : (runSummary cfg rng).R_mag
        - (runSummary cfg rng).num_home_steps * cfg.step_length
        < cfg.step_length := by
      nlinarith
    simpa [simResult] using h3

theorem return_step_count_witness :
    0 < cfgW.step_length
    ∧ (((simResult cfgW rngZ).summary.num_home_steps : ℤ)
        = ⌊(simResult cfgW rngZ).summary.R_mag / cfgW.step_length⌋)
    ∧ (∀ i, i + 1 < (simResult cfgW rngZ).home.length →
        (simResult cfgW rngZ).home.getD (i + 1) (0, 0)
          = (((simResult cfgW rngZ).home.getD i (0, 0)).1
              + cfgW.step_length
                * Real.cos (simResult cfgW rngZ).summary.home_angle,
            ((simResult cfgW rngZ).home.getD i (0, 0)).2
              + cfgW.step_length
                * Real.sin (simResult cfgW rngZ).summary.home_angle))
    ∧ 0 ≤ (simResult cfgW rngZ).summary.R_mag
        - (simResult cfgW rngZ).summary.num_home_steps * cfgW.step_length
    ∧ (simResult cfgW rngZ).summary.R_mag
        - (simResult cfgW rngZ).summary.num_home_steps * cfgW.step_length
        < cfgW.step_length :=
  ⟨by simp [cfgW],
    return_step_count cfgW rngZ (simResult cfgW rngZ) (by simp [cfgW]) runSim_cfgW⟩

/-! ## Claim C6: recorded sequence lengths -/

/-- Claim C6: the exploration snapshot sequence has length
`exploreStepCount + 1` (initial state plus one snapshot per step), and the
return-path position sequence has length `stepCount + 1` (exploration end
position plus one position per return step). -/
theorem recorded_lengths (cfg : Config) (rng : ℕ → ℝ) (res : SimResult)
    (h0 : 0 ≤ cfg.num_explore_steps) (h : runSim cfg rng = some res) :
    ((res.explore.length : ℤ) = cfg.num_explore_steps + 1)
    ∧ res.home.length = res.summary.num_home_steps + 1 := by
  have e := runSim_some_inv h
  subst e
  constructor
  · have hlen : (simResult cfg rng).explore.length = exploreCount cfg + 1 := by
      simp only [simResult]
      rw [explorationHistory_length]
    rw [hlen]
    simp [exploreCount, Int.toNat_of_nonneg h0]
  · simp only [simResult]
    rw [homePath_length]

theorem recorded_lengths_witness :
    0 ≤ cfgW.num_explore_steps
    ∧ (((simResult cfgW rngZ).explore.length : ℤ)
        = cfgW.num_explore_steps + 1)
    ∧ (simResult cfgW rngZ).home.length
        = (simResult cfgW rngZ).summary.num_home_steps + 1 :=
  ⟨by decide,
    recorded_lengths cfgW rngZ (simResult cfgW rngZ) (by decide) runSim_cfgW⟩

/-! ## Claim C8: zero-step edge case -/

lemma runSim_cfgZero : runSim cfgZero rngZ = some (simResult cfgZero rngZ) := by
  unfold runSim
  simp [cfgZero, cfgW, exploreCount]

/-- Claim C8: with `exploreStepCount = 0`, the exploration record holds only
the initial state, the final displacement estimate is `(0, 0)`, the
ReturnSummary magnitude is `0`, the return step count is `0`, and the
return path is the single point given by the exploration end position. -/
theorem zero_step_edge (cfg : Config) (rng : ℕ → ℝ) (res : SimResult)
    (h0 : cfg.num_explore_steps = 0) (h : runSim cfg rng = some res) :
    res.explore = [initState]
    ∧ (finalState cfg rng).Dx = 0
    ∧ (finalState cfg rng).Dy = 0
    ∧ res.summary.R_mag = 0
    ∧ res.summary.num_home_steps = 0
    ∧ res.home = [((finalState cfg rng).x, (finalState cfg rng).y)] := by
  have e := runSim_some_inv h
  subst e
  have hc : exploreCount cfg = 0 := by simp [exploreCount, h0]
  have hfin : finalState cfg rng = initState := by
    rw [finalState, hc]
    rfl
  have hDx : (finalState cfg rng).Dx = 0 := by rw [hfin]; rfl
  have hDy : (finalState cfg rng).Dy = 0 := by rw [hfin]; rfl
  have hmag : (runSummary cfg rng).R_mag = 0 := by
    simp only [runSummary, computeSummary, hDx, hDy]
    simp
  have hnum : (runSummary cfg rng).num_home_steps = 0 := by
    simp only [runSummary, computeSummary, hDx, hDy]
    simp
  refine ⟨?_, hDx, hDy, hmag, hnum, ?_⟩
  · show explorationHistory cfg rng = [initState]
    rw [explorationHistory, hc]
    rfl
  · show homePath cfg.step_length (runSummary cfg rng).home_angle
        ((finalState cfg rng).x, (finalState cfg rng).y)
        (runSummary cfg rng).num_home_steps = _
    rw [hnum]
    rfl

theorem zero_step_edge_witness :
    cfgZero.num_explore_steps = 0
    ∧ ((simResult cfgZero rngZ).explore = [initState]
      ∧ (finalState cfgZero rngZ).Dx = 0
      ∧ (finalState cfgZero rngZ).Dy = 0
      ∧ (simResult cfgZero rngZ).summary.R_mag = 0
      ∧ (simResult cfgZero rngZ).summary.num_home_steps = 0
      ∧ (simResult cfgZero rngZ).home
          = [((finalState cfgZero rngZ).x, (finalState cfgZero rngZ).y)]) :=
  ⟨by decide,
    zero_step_edge cfgZero rngZ (simResult cfgZero rngZ) (by decide) runSim_cfgZero⟩

/-! ## Claim C7: there is no invalid-configuration rejection

The script hard-codes its parameters and performs no validation at all.
A configuration with `scanInterval = -1 < 1` and `stepLength = -1 ≤ 0` is
not rejected: the exploration loop runs and records snapshots.  The only
aborts the script can produce are runtime `ZeroDivisionError`s, namely
`step % 0` (when `scanInterval = 0` and at least one step runs) and
`R_mag / 0.0` (when `stepLength = 0`), and the first of these occurs only
after the first step has already mutated position and displacement. -/

/-- Counterexample to claim C7: the configuration `cfgInvalid`
(`stepLength = -1 ≤ 0` and `scanInterval = -1 < 1`, both invalid in the
claim's sense) is not rejected — the run succeeds and produces an
exploration record of length 2, i.e. a simulation step ran and state was
produced. -/
theorem invalid_config_not_rejected :
    runSim cfgInvalid rngZ = some (simResult cfgInvalid rngZ)
    ∧ (simResult cfgInvalid rngZ).explore.length = 2 := by
  constructor
  · unfold runSim
    norm_num [cfgInvalid, exploreCount]
  · have hlen : (simResult cfgInvalid rngZ).explore.length
        = exploreCount cfgInvalid + 1 := by
      simp only [simResult]
      rw [explorationHistory_length]
    rw [hlen]
    decide

/-- Claim C7 (amended): the script performs no configuration validation.
Any configuration with `scanInterval ≠ 0` (or no exploration steps) and
`stepLength ≠ 0` — including every configuration with `scanInterval < 0`,
`stepLength < 0` or negative `exploreStepCount` — runs to completion and
produces a full record with `exploreCount + 1` exploration snapshots; the
run aborts (with a runtime `ZeroDivisionError`, not a fail-fast rejection)
exactly when `scanInterval = 0` with at least one exploration step, or
`stepLength = 0`. -/
theorem no_config_validation (cfg : Config) (rng : ℕ → ℝ) :
    ((cfg.scan_interval ≠ 0 ∨ exploreCount cfg = 0) → cfg.step_length ≠ 0 →
      runSim cfg rng = some (simResult cfg rng)
        ∧ (simResult cfg rng).explore.length = exploreCount cfg + 1)
    ∧ (exploreCount cfg ≠ 0 → cfg.scan_interval = 0 → runSim cfg rng = none)
    ∧ (cfg.step_length = 0 → runSim cfg rng = none) := by
  refine ⟨fun h1 h2 => ⟨?_, ?_⟩, fun h1 h2 => ?_, fun h1 => ?_⟩
  · unfold runSim
    rw [if_neg (by tauto), if_neg h2]
  · simp only [simResult]
    rw [explorationHistory_length]
  · unfold runSim
    rw [if_pos ⟨h1, h2⟩]
  · unfold runSim
    by_cases hc : exploreCount cfg ≠ 0 ∧ cfg.scan_interval = 0
    · rw [if_pos hc]
    · rw [if_neg hc, if_pos h1]

theorem no_config_validation_witness :
    runSim cfgInvalid rngB = some (simResult cfgInvalid rngB)
    ∧ (simResult cfgInvalid rngB).explore.length
        = exploreCount cfgInvalid + 1 :=
  (no_config_validation cfgInvalid rngB).1 (Or.inl (by decide))
    (by simp [cfgInvalid])
